import Mathlib

/-!
Verification of the coolmonitor repository's Monitor Scheduling & Execution
Engine spec against the TypeScript source, as a shallow embedding in Lean 4.

Embedding conventions:
* JavaScript timestamps are `Nat` milliseconds since the epoch.
* `await`ed Prisma calls that may throw are modelled by `Except String α`
  values supplied as inputs (the run-time result of the call), and the
  surrounding `try/catch` control flow is translated faithfully.
* Database state, where a claim is about observable intermediate states, is
  an explicit `DbState` and each `await` boundary produces one state in a
  trace (JS `await` is a suspension point at which any other task may read
  the database).
-/

namespace Coolmonitor

/-! ## src/lib/monitors/status-recorder.ts -/

/-- Parameters of `recordMonitorStatus` (interface `RecordStatusParams`). -/
structure RecordStatusParams where
  monitorId : String
  status : Int
  message : String
  ping : Option Nat
  deriving Repr, DecidableEq

/-- A persisted `MonitorStatus` row (a StatusRecord of the spec): the fields
`recordMonitorStatus` writes via `prisma.monitorStatus.create`. -/
structure StatusRecord where
  monitorId : String
  status : Int
  message : String
  ping : Option Nat
  deriving Repr, DecidableEq

/-- The slice of database state `recordMonitorStatus` touches: the
`monitorStatus` history table (for one monitor) and the monitor row's cached
`lastStatus` / `lastCheckAt` columns. -/
structure DbState where
  history : List StatusRecord
  lastStatus : Option Int
  lastCheckAt : Option Nat
  deriving Repr, DecidableEq

/-- State-trace view of `recordMonitorStatus` (status-recorder.ts lines
13–44), success path.  `compactMsg` stands for `generateCompactMessage`
(imported from `../utils/compact-message`, outside the embedded sources); the
claims verified here do not depend on its output.  The function first runs
`prisma.monitorStatus.create` (producing the middle state) and then
`prisma.monitor.update` setting `lastCheckAt := new Date()` and
`lastStatus := status` (producing the final state).  Each list element is the
database state visible to other readers at the corresponding `await`
boundary. -/
def recordMonitorStatusTrace (compactMsg : Int → String → Option Nat → String)
    (p : RecordStatusParams) (now : Nat) (s : DbState) : List DbState :=
  let record : StatusRecord :=
    { monitorId := p.monitorId
      status := p.status
      message := compactMsg p.status p.message p.ping
      ping := p.ping }
  let s1 : DbState := { s with history := s.history ++ [record] }
  let s2 : DbState := { s1 with lastStatus := some p.status, lastCheckAt := some now }
  [s, s1, s2]

/-- The new StatusRecord created by a `recordMonitorStatus` call. -/
def createdRecord (compactMsg : Int → String → Option Nat → String)
    (p : RecordStatusParams) : StatusRecord :=
  { monitorId := p.monitorId
    status := p.status
    message := compactMsg p.status p.message p.ping
    ping := p.ping }

/-- Error-propagation view of `recordMonitorStatus` (status-recorder.ts lines
13–44).  `createResult` is the run-time outcome of the awaited
`prisma.monitorStatus.create` and `updateResult` that of
`prisma.monitor.update`; if `create` throws, `update` is never reached.  The
`catch` block logs (`console.error`) and rethrows, so the returned pair is
(result surfaced to the caller, whether an error was logged). -/
def recordMonitorStatusResult (createResult : Except String StatusRecord)
    (updateResult : Except String Unit) : Except String StatusRecord × Bool :=
  match createResult with
  | .error e => (.error e, true)
  | .ok record =>
    match updateResult with
    | .error e => (.error e, true)
    | .ok _ => (.ok record, false)

/-- Milliseconds in one day, as used by JS `Date` day arithmetic. -/
def msPerDay : Nat := 86400000

/-- `cleanupStatusHistory` (status-recorder.ts lines 47–66).  The cutoff is
`new Date()` moved back `days` days via `setDate` (on a fixed-offset clock
this subtracts exactly `days * 86400000` ms); `deleteMany` removes the
records whose `timestamp` is `lt` (strictly less than) the cutoff and
reports how many it removed.  The history table is the list of record
timestamps; the result is (count deleted, remaining table). -/
def cleanupStatusHistory (days : Nat) (now : Nat) (table : List Nat) :
    Nat × List Nat :=
  let cutoffDate := now - days * msPerDay
  let deleted := table.filter (fun t => t < cutoffDate)
  let remaining := table.filter (fun t => ¬ t < cutoffDate)
  (deleted.length, remaining)

/-- `cleanupStatusHistory()` with the default argument `days = 30`. -/
def cleanupStatusHistoryDefault (now : Nat) (table : List Nat) : Nat × List Nat :=
  cleanupStatusHistory 30 now table

end Coolmonitor

namespace Coolmonitor

/-! ## src/app/api/monitors/import/route.ts — JS helpers -/

/-- JS `String.prototype.trim()`, written structurally over the character
list (the imported cells are ASCII, for which this agrees with JS). -/
def jsTrim (s : String) : String :=
  String.mk (((s.data.dropWhile Char.isWhitespace).reverse.dropWhile
    Char.isWhitespace).reverse)

/-- JS `String.prototype.toLowerCase()` (ASCII range). -/
def jsToLower (s : String) : String :=
  String.mk (s.data.map Char.toLower)

/-- JS `String.prototype.toUpperCase()` (ASCII range). -/
def jsToUpper (s : String) : String :=
  String.mk (s.data.map Char.toUpper)

/-- JS `s.startsWith(pre)`. -/
def jsStartsWith (s pre : String) : Bool :=
  pre.data.isPrefixOf s.data

/-- `String(row[k1] || row[k2] || dflt)`: the two alternative header keys
(Chinese / English) of one logical column are modelled as a single optional
cell; a missing cell or an empty-string cell is falsy and falls through to
the default. -/
def getCell (cell : Option String) (dflt : String) : String :=
  match cell with
  | some s => if s = "" then dflt else s
  | none => dflt

/-- JS `parseInt(s)` (radix 10): skip leading whitespace, read an optional
sign and then the longest leading digit run; `none` models `NaN` (no
digits). Trailing non-digit characters are ignored. -/
def jsParseInt (s : String) : Option Int :=
  let cs := (jsTrim s).data
  let signed : Int × List Char :=
    match cs with
    | '-' :: r => (-1, r)
    | '+' :: r => (1, r)
    | r => (1, r)
  let digits := signed.2.takeWhile Char.isDigit
  if digits = [] then none
  else some (signed.1 * (digits.foldl (fun a c => a * 10 + (c.toNat - 48)) (0 : Nat) : Int))

/-- `parseInt(s) || d`: both `NaN` and `0` (including `-0`) are falsy and
yield the default. -/
def jsParseIntOr (s : String) (dflt : Int) : Int :=
  match jsParseInt s with
  | none => dflt
  | some v => if v = 0 then dflt else v

/-! ## src/app/api/monitors/import/route.ts — row processing -/

/-- `validTypes` (route.ts line 92). -/
def validTypes : List String :=
  ["http", "keyword", "https-cert", "port", "mysql", "redis", "icmp", "push"]

/-- The `config` object built for one row (`Record<string, any>` with the
keys the route may set; `none` = key never assigned). -/
structure MonitorConfig where
  url : Option String := none
  httpMethod : Option String := none
  statusCodes : Option String := none
  maxRedirects : Option Int := none
  connectTimeout : Option Int := none
  ignoreTls : Option Bool := none
  notifyCertExpiry : Option Bool := none
  keyword : Option String := none
  requestBody : Option String := none
  requestHeaders : Option String := none
  hostname : Option String := none
  port : Option Int := none
  username : Option String := none
  password : Option String := none
  query : Option String := none
  database : Option String := none
  packetCount : Option Int := none
  maxPacketLoss : Option Int := none
  deriving Repr, DecidableEq

/-- One sheet row as `sheet_to_json(..., raw: false)` delivers it: every
cell a string, absent cells `none`.  Each field stands for the pair of
alternative header keys the route reads. -/
structure Row where
  name : Option String := none
  type : Option String := none
  url : Option String := none
  httpMethod : Option String := none
  statusCodes : Option String := none
  maxRedirects : Option String := none
  connectTimeout : Option String := none
  ignoreTls : Option String := none
  notifyCertExpiry : Option String := none
  keyword : Option String := none
  requestBody : Option String := none
  requestHeaders : Option String := none
  hostname : Option String := none
  port : Option String := none
  username : Option String := none
  password : Option String := none
  query : Option String := none
  database : Option String := none
  groupName : Option String := none
  interval : Option String := none
  retries : Option String := none
  retryInterval : Option String := none
  resendInterval : Option String := none
  upsideDown : Option String := none
  description : Option String := none
  active : Option String := none
  deriving Repr, DecidableEq

/-- The `monitorData` object handed to `monitorOperations.createMonitor`
(route.ts lines 208–221); the group association is kept by name. -/
structure MonitorData where
  name : String
  type : String
  config : MonitorConfig
  interval : Int
  retries : Int
  retryInterval : Int
  resendInterval : Int
  upsideDown : Bool
  description : String
  active : Bool
  groupName : Option String
  deriving Repr, DecidableEq

/-- Config construction for `http` / `keyword` / `https-cert` rows
(route.ts lines 103–145).  The keyword-empty check is performed by the
source after the unconditional assignments (`maxRedirects`, …); since those
assignments cannot fail, hoisting the check preserves the outcome. -/
def httpFamilyConfig (r : Row) (ty : String) : Except String MonitorConfig :=
  let url := jsTrim (getCell r.url "")
  if url = "" then .error (ty ++ "类型监控需要URL字段")
  else if ty = "https-cert" ∧ jsStartsWith url "https://" = false then
    .error "HTTPS证书监控必须使用HTTPS URL"
  else
    let keyword := jsTrim (getCell r.keyword "")
    if ty = "keyword" ∧ keyword = "" then .error "关键字监控需要关键字字段"
    else
      let requestBody := jsTrim (getCell r.requestBody "")
      let requestHeaders := jsTrim (getCell r.requestHeaders "")
      .ok { url := some url
            httpMethod :=
              if ty = "http" ∨ ty = "keyword" then
                some (jsToUpper (jsTrim (getCell r.httpMethod "GET")))
              else none
            statusCodes :=
              if ty = "http" ∨ ty = "keyword" then
                some (jsTrim (getCell r.statusCodes "200-299"))
              else none
            maxRedirects := some (jsParseIntOr (getCell r.maxRedirects "10") 10)
            connectTimeout := some (jsParseIntOr (getCell r.connectTimeout "10") 10)
            ignoreTls := some (jsToLower (getCell r.ignoreTls "false") == "true")
            notifyCertExpiry :=
              if ty = "http" then
                some (jsToLower (getCell r.notifyCertExpiry "false") == "true")
              else none
            keyword := if ty = "keyword" then some keyword else none
            requestBody := if requestBody = "" then none else some requestBody
            requestHeaders := if requestHeaders = "" then none else some requestHeaders }

/-- Config construction for `port` / `mysql` / `redis` rows (route.ts lines
147–174). -/
def portFamilyConfig (r : Row) (ty : String) : Except String MonitorConfig :=
  let hostname := jsTrim (getCell r.hostname "")
  let port := jsTrim (getCell r.port "")
  if hostname = "" then .error (ty ++ "类型监控需要主机名字段")
  else if port = "" ∨ (jsParseInt port).isNone then
    .error (ty ++ "类型监控需要有效的端口字段")
  else
    .ok { hostname := some hostname
          port := some ((jsParseInt port).getD 0)
          username :=
            if ty = "mysql" ∨ ty = "redis" then some (jsTrim (getCell r.username "")) else none
          password :=
            if ty = "mysql" ∨ ty = "redis" then some (jsTrim (getCell r.password "")) else none
          query :=
            if ty = "mysql" ∨ ty = "redis" then some (jsTrim (getCell r.query "")) else none
          database := if ty = "mysql" then some (jsTrim (getCell r.database "")) else none }

/-- Config construction for `icmp` rows (route.ts lines 176–186): a
non-empty hostname is required, `packetCount` is fixed to `4` and
`maxPacketLoss` to `0`. -/
def icmpConfig (r : Row) : Except String MonitorConfig :=
  if jsTrim (getCell r.hostname "") = "" then .error "ICMP监控需要主机名字段"
  else .ok { hostname := some (jsTrim (getCell r.hostname ""))
             packetCount := some 4
             maxPacketLoss := some 0 }

/-- Dispatch of the three config branches by monitor type; any other valid
type (`push`) leaves `config` empty. -/
def rowConfig (r : Row) (ty : String) : Except String MonitorConfig :=
  if ty = "http" ∨ ty = "keyword" ∨ ty = "https-cert" then httpFamilyConfig r ty
  else if ty = "port" ∨ ty = "mysql" ∨ ty = "redis" then portFamilyConfig r ty
  else if ty = "icmp" then icmpConfig r
  else .ok {}

/-- Pure validation + data construction for one row (route.ts lines 74–221):
name and type checks, type whitelist, config building, and the numeric
fields with their `parseInt(...) || default` fallbacks. -/
def rowValidate (r : Row) : Except String MonitorData :=
  if jsTrim (getCell r.name "") = "" then .error "监控名称不能为空"
  else if jsToLower (jsTrim (getCell r.type "")) = "" then .error "监控类型不能为空"
  else if ¬ validTypes.contains (jsToLower (jsTrim (getCell r.type ""))) then
    .error ("无效的监控类型: " ++ jsToLower (jsTrim (getCell r.type "")))
  else
    match rowConfig r (jsToLower (jsTrim (getCell r.type ""))) with
    | .error e => .error e
    | .ok cfg =>
      .ok { name := jsTrim (getCell r.name "")
            type := jsToLower (jsTrim (getCell r.type ""))
            config := cfg
            interval := jsParseIntOr (getCell r.interval "60") 60
            retries := jsParseIntOr (getCell r.retries "0") 0
            retryInterval := jsParseIntOr (getCell r.retryInterval "60") 60
            resendInterval := jsParseIntOr (getCell r.resendInterval "0") 0
            upsideDown := jsToLower (getCell r.upsideDown "false") == "true"
            description := jsTrim (getCell r.description "")
            active := jsToLower (getCell r.active "true") != "false"
            groupName :=
              if jsTrim (getCell r.groupName "") = "" then none
              else some (jsTrim (getCell r.groupName "")) }

/-- Outcome of one loop iteration.  `dbFail` is the run-time behaviour of
the awaited database operations for this row (`prisma.monitorGroup.create` /
`monitorOperations.createMonitor`): `some e` means one of them threw with
message `e`, which the per-row `catch` turns into an error entry. -/
def rowOutcome (r : Row) (dbFail : Option String) : Except String MonitorData :=
  match rowValidate r with
  | .error e => .error e
  | .ok m =>
    match dbFail with
    | some e => .error e
    | none => .ok m

/-- The `results` accumulator of the import loop plus the list of created
monitors (`createdMonitorIds`, here kept with their data and sheet index). -/
structure ImportResults where
  success : Nat
  failed : Nat
  errors : List (Nat × String)
  created : List (Nat × MonitorData)
  deriving Repr, DecidableEq

/-- The import loop over the sheet rows (route.ts lines 70–238), starting at
sheet index `i`; row numbers in error entries are `index + 2` (line 72). -/
def importLoop (dbFail : Nat → Option String) : Nat → List Row → ImportResults
  | _, [] => { success := 0, failed := 0, errors := [], created := [] }
  | i, r :: rest =>
    let res := importLoop dbFail (i + 1) rest
    match rowOutcome r (dbFail i) with
    | .ok m =>
      { success := res.success + 1, failed := res.failed, errors := res.errors
        created := (i, m) :: res.created }
    | .error e =>
      { success := res.success, failed := res.failed + 1
        errors := (i + 2, e) :: res.errors, created := res.created }

/-- Processing of all data rows of the uploaded sheet. -/
def importRows (rows : List Row) (dbFail : Nat → Option String) : ImportResults :=
  importLoop dbFail 0 rows

/-- Spec-side mirror: the Excel row numbers of exactly the rows that fail,
in sheet order, starting at sheet index `i`. -/
def failedRowNumbers (dbFail : Nat → Option String) : Nat → List Row → List Nat
  | _, [] => []
  | i, r :: rest =>
    (if (rowOutcome r (dbFail i)).isOk then [] else [i + 2]) ++
      failedRowNumbers dbFail (i + 1) rest

/-! ## Import-loop helper lemmas -/

/-- Each loop iteration either increments `success` or increments `failed`
and appends one error entry carrying the Excel row number `index + 2`. -/
theorem importLoop_counts (dbFail : Nat → Option String) :
    ∀ (rows : List Row) (i : Nat),
      (importLoop dbFail i rows).success + (importLoop dbFail i rows).failed
          = rows.length ∧
        (importLoop dbFail i rows).errors.length = (importLoop dbFail i rows).failed ∧
        (importLoop dbFail i rows).errors.map Prod.fst = failedRowNumbers dbFail i rows := by
  intro rows
  induction rows with
  | nil => intro i; simp [importLoop, failedRowNumbers]
  | cons r rest ih =>
    intro i
    obtain ⟨h1, h2, h3⟩ := ih (i + 1)
    simp only [importLoop, failedRowNumbers]
    cases hro : rowOutcome r (dbFail i) with
    | ok m =>
      refine ⟨by simp; omega, by simpa using h2, ?_⟩
      simp [Except.isOk, Except.toBool, h3]
    | error e =>
      refine ⟨by simp; omega, by simpa using h2, ?_⟩
      simp [Except.isOk, Except.toBool, h3]

/-- Every Excel row number recorded for rows processed from sheet index `i`
onward is at least `i + 2`. -/
theorem failedRowNumbers_ge (dbFail : Nat → Option String) :
    ∀ (rows : List Row) (i e : Nat), e ∈ failedRowNumbers dbFail i rows → i + 2 ≤ e := by
  intro rows
  induction rows with
  | nil => intro i e he; simp [failedRowNumbers] at he
  | cons r rest ih =>
    intro i e he
    simp only [failedRowNumbers, List.mem_append] at he
    rcases he with he | he
    · split at he
      · simp at he
      · simp at he; omega
    · have := ih (i + 1) e he
      omega

/-- The Excel row number `i + j + 2` appears in the failed-row list exactly
once when row `j` (counting from loop start `i`) fails, and not at all when
it succeeds. -/
theorem failedRowNumbers_count (dbFail : Nat → Option String) :
    ∀ (rows : List Row) (i j : Nat) (hj : j < rows.length),
      (failedRowNumbers dbFail i rows).count (i + j + 2) =
        if (rowOutcome (rows.get ⟨j, hj⟩) (dbFail (i + j))).isOk then 0 else 1 := by
  intro rows
  induction rows with
  | nil => intro i j hj; simp at hj
  | cons r rest ih =>
    intro i j hj
    match j with
    | 0 =>
      have hz : ∀ x ∈ failedRowNumbers dbFail (i + 1) rest, x ≠ i + 2 := by
        intro x hx
        have := failedRowNumbers_ge dbFail rest (i + 1) x hx
        omega
      have hz' : (failedRowNumbers dbFail (i + 1) rest).count (i + 2) = 0 :=
        List.count_eq_zero.mpr (fun hmem => (hz _ hmem) rfl)
      simp only [failedRowNumbers, List.count_append]
      cases hok : (rowOutcome r (dbFail i)).isOk <;>
        simp [List.get, hok, hz', Nat.add_zero]
    | j + 1 =>
      have hj' : j < rest.length := by simpa using Nat.lt_of_succ_lt_succ hj
      have hrec := ih (i + 1) j hj'
      have e1 : i + 1 + j = i + (j + 1) := by omega
      rw [e1] at hrec
      simp only [failedRowNumbers, List.count_append]
      have hne : ¬ (i + 2 = i + (j + 1) + 2) := by omega
      cases hok : (rowOutcome r (dbFail i)).isOk <;>
        simp [hok, hrec, List.count_cons, hne, List.get]

/-- Every monitor the loop creates comes from a row whose outcome was `ok`:
the created entry at sheet index `i + j` is exactly the `MonitorData` that
row `j` validated to. -/
theorem importLoop_created (dbFail : Nat → Option String) :
    ∀ (rows : List Row) (i : Nat) (p : Nat × MonitorData),
      p ∈ (importLoop dbFail i rows).created →
        ∃ j, ∃ hj : j < rows.length, p.1 = i + j ∧
          rowOutcome (rows.get ⟨j, hj⟩) (dbFail (i + j)) = .ok p.2 := by
  intro rows
  induction rows with
  | nil => intro i p hp; simp [importLoop] at hp
  | cons r rest ih =>
    intro i p hp
    simp only [importLoop] at hp
    cases hro : rowOutcome r (dbFail i) with
    | ok m =>
      rw [hro] at hp
      simp only [List.mem_cons] at hp
      rcases hp with hp | hp
      · exact ⟨0, by simp, by simp [hp], by simpa [List.get, hp] using hro⟩
      · obtain ⟨j, hj, hp1, hout⟩ := ih (i + 1) p hp
        have e1 : i + 1 + j = i + (j + 1) := by omega
        exact ⟨j + 1, by simpa using Nat.succ_lt_succ hj, by omega,
          by rw [← e1]; exact hout⟩
    | error e =>
      rw [hro] at hp
      obtain ⟨j, hj, hp1, hout⟩ := ih (i + 1) p hp
      have e1 : i + 1 + j = i + (j + 1) := by omega
      exact ⟨j + 1, by simpa using Nat.succ_lt_succ hj, by omega,
        by rw [← e1]; exact hout⟩

/-- A row whose normalized type is not whitelisted fails regardless of the
database behaviour. -/
theorem rowOutcome_invalid_type (r : Row)
    (h : validTypes.contains (jsToLower (jsTrim (getCell r.type ""))) = false) :
    ∀ db, (rowOutcome r db).isOk = false := by
  intro db
  have h' : jsToLower (jsTrim (getCell r.type "")) ∉ validTypes := by
    intro hmem
    have hf : List.elem (jsToLower (jsTrim (getCell r.type ""))) validTypes = false := h
    rw [List.elem_eq_true_of_mem hmem] at hf
    cases hf
  unfold rowOutcome rowValidate
  by_cases h1 : jsTrim (getCell r.name "") = ""
  · simp [h1, Except.isOk, Except.toBool]
  · by_cases h2 : jsToLower (jsTrim (getCell r.type "")) = ""
    · simp [h1, h2, Except.isOk, Except.toBool]
    · simp [h1, h2, h', Except.isOk, Except.toBool]

/-- A successful row outcome is exactly a successful validation. -/
theorem rowOutcome_ok (r : Row) (db : Option String) (m : MonitorData)
    (h : rowOutcome r db = .ok m) : rowValidate r = .ok m := by
  unfold rowOutcome at h
  split at h
  · exact absurd h (by simp)
  case _ m' heq =>
    cases db with
    | some e => exact absurd h (by simp)
    | none => simp only at h; rw [heq]; simpa using h

/-- A successful validation records the normalized type and a config
produced by `rowConfig` for that type. -/
theorem rowValidate_ok (r : Row) (m : MonitorData) (h : rowValidate r = .ok m) :
    m.type = jsToLower (jsTrim (getCell r.type "")) ∧
      rowConfig r m.type = .ok m.config := by
  unfold rowValidate at h
  split at h
  · exact absurd h (by simp)
  split at h
  · exact absurd h (by simp)
  split at h
  · exact absurd h (by simp)
  split at h
  · exact absurd h (by simp)
  case _ cfg heq =>
    simp only [Except.ok.injEq] at h
    subst h
    exact ⟨rfl, heq⟩

/-- `rowConfig` on type `icmp` always sets `packetCount = 4` and
`maxPacketLoss = 0`. -/
theorem rowConfig_icmp (r : Row) (cfg : MonitorConfig)
    (h : rowConfig r "icmp" = .ok cfg) :
    cfg.packetCount = some 4 ∧ cfg.maxPacketLoss = some 0 := by
  unfold rowConfig at h
  rw [if_neg (by decide), if_neg (by decide), if_pos rfl] at h
  unfold icmpConfig at h
  split at h
  · exact absurd h (by simp)
  · simp only [Except.ok.injEq] at h
    subst h
    exact ⟨rfl, rfl⟩

/-! ## Theorems: status recorder (C1, C2, C5) -/

/-- Concrete inputs used to exhibit the intermediate state of
`recordMonitorStatus`. -/
def c1Params : RecordStatusParams :=
  { monitorId := "m1", status := 1, message := "up", ping := some 12 }

/-- Initial database state for the C1 counterexample: one monitor whose
cached status is `0` (down), checked at time `0`, with empty history. -/
def c1Start : DbState := { history := [], lastStatus := some 0, lastCheckAt := some 0 }

/-- C1 counterexample: `recordMonitorStatus` is not atomic.  Running it from
`c1Start` with outcome status `1` at time `5`, the trace contains a reachable
intermediate state (the one after `prisma.monitorStatus.create` and before
`prisma.monitor.update`) in which the history already contains the new
StatusRecord while the cached `lastStatus`/`lastCheckAt` still hold their
prior values `some 0`/`some 0`. -/
theorem recordMonitorStatus_not_atomic :
    ∃ s ∈ recordMonitorStatusTrace (fun _ m _ => m) c1Params 5 c1Start,
      createdRecord (fun _ m _ => m) c1Params ∈ s.history ∧
      s.lastStatus = some 0 ∧ s.lastCheckAt = some 0 ∧
      s.lastStatus ≠ some c1Params.status ∧ s.lastCheckAt ≠ some 5 := by
  refine ⟨{ history := [createdRecord (fun _ m _ => m) c1Params],
            lastStatus := some 0, lastCheckAt := some 0 }, ?_, ?_⟩
  · simp [recordMonitorStatusTrace, createdRecord, c1Params, c1Start]
  · simp [c1Params]

/-- C1 amended: `recordMonitorStatus` persists the StatusRecord first and
updates the monitor's cached `lastStatus`/`lastCheckAt` second, as two
separate sequential operations.  After completion both are applied, but the
trace passes through exactly one intermediate state, in which the history
already contains the new record while the cache is unchanged. -/
theorem recordMonitorStatus_sequential (compactMsg : Int → String → Option Nat → String)
    (p : RecordStatusParams) (now : Nat) (s : DbState) :
    recordMonitorStatusTrace compactMsg p now s =
      [s,
       { s with history := s.history ++ [createdRecord compactMsg p] },
       { history := s.history ++ [createdRecord compactMsg p],
         lastStatus := some p.status, lastCheckAt := some now }] := by
  rfl

/-- C2: `cleanupStatusHistory days` deletes exactly the records whose
timestamp is strictly older than the cutoff `now - days` days: a timestamp
`t` survives pruning iff it was in the table and is not strictly older than
the cutoff (so a record exactly at the cutoff is kept), the returned count
plus the surviving records account for the whole table, and the default
retention is 30 days. -/
theorem cleanupStatusHistory_prunes_strictly_older (days now t : Nat) (table : List Nat) :
    (t ∈ (cleanupStatusHistory days now table).2 ↔
        t ∈ table ∧ ¬ t < now - days * msPerDay) ∧
      (cleanupStatusHistory days now table).2 =
        table.filter (fun x => ¬ x < now - days * msPerDay) ∧
      (cleanupStatusHistory days now table).1 +
          (cleanupStatusHistory days now table).2.length = table.length ∧
      cleanupStatusHistoryDefault now table = cleanupStatusHistory 30 now table := by
  refine ⟨?_, rfl, ?_, rfl⟩
  · simp [cleanupStatusHistory, List.mem_filter]
  · simp only [cleanupStatusHistory]
    have h := List.length_eq_length_filter_add (l := table)
      (fun x => decide (x < now - days * msPerDay))
    have he : List.filter (fun x => !decide (x < now - days * msPerDay)) table
        = List.filter (fun x => decide ¬(x < now - days * msPerDay)) table := by
      apply List.filter_congr
      intro x _
      by_cases hx : x < now - days * msPerDay <;> simp [hx]
    rw [he] at h
    omega

/-- C5: `recordMonitorStatus` surfaces an error to its caller if and only if
the `create` or the `update` sub-operation fails, and exactly in that case
the failure is logged via `console.error`; when both succeed it returns the
created StatusRecord and logs nothing. -/
theorem recordMonitorStatus_error_iff (createResult : Except String StatusRecord)
    (updateResult : Except String Unit) (record : StatusRecord) :
    ((recordMonitorStatusResult createResult updateResult).1.isOk = false ↔
        createResult.isOk = false ∨ updateResult.isOk = false) ∧
      ((recordMonitorStatusResult createResult updateResult).2 = true ↔
        createResult.isOk = false ∨ updateResult.isOk = false) ∧
      recordMonitorStatusResult (.ok record) (.ok ()) = (.ok record, false) := by
  refine ⟨?_, ?_, rfl⟩
  · cases createResult <;> cases updateResult <;>
      simp [recordMonitorStatusResult, Except.isOk, Except.toBool]
  · cases createResult <;> cases updateResult <;>
      simp [recordMonitorStatusResult, Except.isOk, Except.toBool]

end Coolmonitor

namespace Coolmonitor

/-! ## Theorems: Excel import (C3, C6, C7, C8) -/

/-- A row whose interval cell is `"-5"` and retries cell is `"-3"`: all
required fields valid, so the route accepts it. -/
def c3Row : Row :=
  { name := some "svc", type := some "http", url := some "http://example.com"
    interval := some "-5", retries := some "-3" }

/-- C3 failing input: the import endpoint accepts a row whose interval cell
is `"-5"` and retries cell is `"-3"` and creates a monitor with
`interval = -5 < 1` and `retries = -3 < 0`, violating the data-model
invariant `interval ≥ 1 ∧ retries ≥ 0` (the `parseInt(...) || default`
fallback only replaces `NaN` and `0`, not negative values). -/
theorem import_accepts_negative_interval :
    (importRows [c3Row] (fun _ => none)).created.map
        (fun p => (p.2.interval, p.2.retries)) = [(-5, -3)] ∧
      (importRows [c3Row] (fun _ => none)).success = 1 ∧
      ((-5 : Int) < 1 ∧ (-3 : Int) < 0) := by
  refine ⟨by decide, by decide, by decide⟩

/-- C6: a row whose monitor type, after trimming and lowercasing, is not in
the eight-element whitelist contributes exactly one error entry carrying its
Excel row number `i + 2` and no created monitor, for any database
behaviour. -/
theorem import_rejects_invalid_type (rows : List Row) (dbFail : Nat → Option String)
    (i : Nat) (hi : i < rows.length)
    (hty : validTypes.contains
      (jsToLower (jsTrim (getCell (rows.get ⟨i, hi⟩).type ""))) = false) :
    ((importRows rows dbFail).errors.map Prod.fst).count (i + 2) = 1 ∧
      (importRows rows dbFail).created.all (fun p => p.1 != i) = true := by
  have hfail := rowOutcome_invalid_type _ hty
  constructor
  · have hmaps := (importLoop_counts dbFail rows 0).2.2
    rw [importRows, hmaps]
    have hcnt := failedRowNumbers_count dbFail rows 0 i hi
    simp only [Nat.zero_add] at hcnt
    rw [hcnt, hfail (dbFail i)]
    simp
  · rw [List.all_eq_true]
    intro p hp
    obtain ⟨j, hj, hp1, hout⟩ := importLoop_created dbFail rows 0 p hp
    simp only [Nat.zero_add] at hp1 hout
    rw [bne_iff_ne]
    intro hpe
    rw [hpe] at hp1
    subst hp1
    have hgeq : rows.get ⟨i, hj⟩ = rows.get ⟨i, hi⟩ := rfl
    have hff := hfail (dbFail i)
    rw [← hgeq, hout] at hff
    simp [Except.isOk, Except.toBool] at hff

/-- Concrete invalid-type row for the C6 witness. -/
def c6Row : Row := { name := some "x", type := some "ftp", url := some "http://a" }

/-- C6 witness: a one-row sheet whose type cell is `"ftp"` yields one error
entry with Excel row number 2 and creates nothing. -/
theorem import_rejects_invalid_type_witness :
    ((importRows [c6Row] (fun _ => none)).errors.map Prod.fst).count (0 + 2) = 1 ∧
      (importRows [c6Row] (fun _ => none)).created.all (fun p => p.1 != 0) = true :=
  import_rejects_invalid_type [c6Row] (fun _ => none) 0 (by decide) (by decide)

/-- C7: every monitor of type `icmp` created by the import loop has
`config.packetCount = 4` and `config.maxPacketLoss = 0`. -/
theorem import_icmp_defaults (rows : List Row) (dbFail : Nat → Option String)
    (p : Nat × MonitorData) (hp : p ∈ (importRows rows dbFail).created)
    (hicmp : p.2.type = "icmp") :
    p.2.config.packetCount = some 4 ∧ p.2.config.maxPacketLoss = some 0 := by
  obtain ⟨j, hj, hp1, hout⟩ := importLoop_created dbFail rows 0 p hp
  have hval := rowOutcome_ok _ _ _ hout
  obtain ⟨hty, hcfg⟩ := rowValidate_ok _ _ hval
  rw [hicmp] at hcfg
  exact rowConfig_icmp _ _ hcfg

/-- Concrete icmp row for the C7 witness. -/
def c7Row : Row := { name := some "ping", type := some "icmp", hostname := some "h" }

/-- The monitor the import loop creates from `c7Row`. -/
def c7Monitor : MonitorData :=
  { name := "ping", type := "icmp"
    config := { hostname := some "h", packetCount := some 4, maxPacketLoss := some 0 }
    interval := 60, retries := 0, retryInterval := 60, resendInterval := 0
    upsideDown := false, description := "", active := true, groupName := none }

/-- C7 witness: importing the concrete icmp row creates `c7Monitor`, whose
config carries packet count 4 and max packet loss 0. -/
theorem import_icmp_defaults_witness :
    ((0 : Nat), c7Monitor).2.config.packetCount = some 4 ∧
      ((0 : Nat), c7Monitor).2.config.maxPacketLoss = some 0 :=
  import_icmp_defaults [c7Row] (fun _ => none) (0, c7Monitor) (by decide) (by decide)

/-- C8: for a sheet of `n` data rows, `success + failed = n`, the error list
has exactly one entry per failed row, and the recorded Excel row numbers are
exactly the failed rows' sheet positions plus 2, in order. -/
theorem import_results_accounting (rows : List Row) (dbFail : Nat → Option String) :
    (importRows rows dbFail).success + (importRows rows dbFail).failed = rows.length ∧
      (importRows rows dbFail).errors.length = (importRows rows dbFail).failed ∧
      (importRows rows dbFail).errors.map Prod.fst = failedRowNumbers dbFail 0 rows :=
  importLoop_counts dbFail rows 0

end Coolmonitor

namespace Coolmonitor

/-! ## src/app/api/monitors/[id]/route.ts — handler effect traces -/

/-- The monitor row as returned by `monitorOperations.updateMonitor`; only
the `active` flag steers the handlers. -/
structure Monitor where
  active : Bool
  deriving Repr, DecidableEq

/-- Observable side effects of the `[id]` route handlers, in the order the
handler issues them:  the store update/delete calls and the scheduler
notifications (`scheduleMonitor` is awaited inside a `setImmediate`
callback, `stopMonitor` is called directly; both are invocations). -/
inductive Effect where
  | updateMonitor (id : String)
  | deleteMonitor (id : String)
  | scheduleMonitor (id : String)
  | stopMonitor (id : String)
  deriving Repr, DecidableEq

/-- Effect trace of `PUT /api/monitors/[id]` (route.ts lines 44–99).
`authOk` is the result of `validateAuth`; `name`/`ty` are the request body's
`name`/`type` fields (`""` models a missing or falsy field);
`updateResult` is the run-time outcome of `monitorOperations.updateMonitor`
(on a throw the `catch` returns a 500 and nothing further runs).  After a
successful update of an active monitor the handler schedules the monitor via
`setImmediate(async () => scheduleMonitor(id))`. -/
def putTrace (authOk : Bool) (name ty : String)
    (updateResult : Except String Monitor) (id : String) : List Effect :=
  if authOk = false then []
  else if name = "" ∨ ty = "" then []
  else
    match updateResult with
    | .error _ => []
    | .ok monitor =>
      Effect.updateMonitor id ::
        (if monitor.active then [Effect.scheduleMonitor id] else [])

/-- Effect trace of `DELETE /api/monitors/[id]` (route.ts lines 102–133).
The handler first calls `stopMonitor(id)` (its own failure is caught and
does not block deletion) and then awaits `monitorOperations.deleteMonitor`;
`deleteOk` is whether that await succeeds. -/
def deleteTrace (authOk : Bool) (deleteOk : Bool) (id : String) : List Effect :=
  if authOk = false then []
  else
    Effect.stopMonitor id ::
      (if deleteOk then [Effect.deleteMonitor id] else [])

/-- Effect trace of `PATCH /api/monitors/[id]` (route.ts lines 136–193).
`activeProvided` models `data.active !== undefined`; `active` is the
requested flag; `updateResult` the outcome of
`monitorOperations.updateMonitor(id, showing active)`.  On success the
handler schedules the monitor when activating and stops it when
deactivating, each inside `setImmediate`. -/
def patchTrace (authOk : Bool) (activeProvided : Bool) (active : Bool)
    (updateResult : Except String Monitor) (id : String) : List Effect :=
  if authOk = false then []
  else if activeProvided = false then []
  else
    match updateResult with
    | .error _ => []
    | .ok _ =>
      Effect.updateMonitor id ::
        (if active then [Effect.scheduleMonitor id] else [Effect.stopMonitor id])

end Coolmonitor

namespace Coolmonitor

/-! ## Theorems: API lifecycle notifications (C4) -/

/-- C4: the `[id]` route handlers inform the scheduler on every lifecycle
change — a successful authorized PUT whose updated monitor is active invokes
`scheduleMonitor(id)`; a successful authorized PATCH that sets
`active = false` invokes `stopMonitor(id)`; and an authorized DELETE's trace
is exactly `stopMonitor(id)` followed by the store deletion, so the stop is
invoked before the monitor is deleted. -/
theorem api_informs_scheduler (id name ty : String) (m : Monitor)
    (hname : name ≠ "") (hty : ty ≠ "") (hactive : m.active = true) :
    Effect.scheduleMonitor id ∈ putTrace true name ty (.ok m) id ∧
      Effect.stopMonitor id ∈ patchTrace true true false (.ok m) id ∧
      deleteTrace true true id = [Effect.stopMonitor id, Effect.deleteMonitor id] := by
  refine ⟨?_, ?_, rfl⟩
  · simp [putTrace, hname, hty, hactive]
  · simp [patchTrace]

/-- C4 witness: concrete instantiation with an active monitor, non-empty
name and type. -/
theorem api_informs_scheduler_witness :
    Effect.scheduleMonitor "m1" ∈ putTrace true "svc" "http" (.ok ⟨true⟩) "m1" ∧
      Effect.stopMonitor "m1" ∈ patchTrace true true false (.ok ⟨true⟩) "m1" ∧
      deleteTrace true true "m1" =
        [Effect.stopMonitor "m1", Effect.deleteMonitor "m1"] :=
  api_informs_scheduler "m1" "svc" "http" ⟨true⟩ (by decide) (by decide) rfl

end Coolmonitor

namespace Coolmonitor

/-! ## src/lib/utils/ultra-compact-id.ts -/

/-- The standard base64 alphabet used by `Buffer.toString('base64')`. -/
def b64Alphabet : List Char :=
  "ABCDEFGHIJKLMNOPQRSTUVWXYZabcdefghijklmnopqrstuvwxyz0123456789+/".data

/-- Character of the base64 alphabet at index `i` (only indices `< 64`
arise). -/
def b64Char (i : Nat) : Char := b64Alphabet.getD i 'A'

/-- RFC 4648 base64 encoding with padding, as produced by
`Buffer.from(hex).toString('base64')`, over the byte list. -/
def base64Encode : List Nat → List Char
  | [] => []
  | [b1] => [b64Char (b1 / 4), b64Char (b1 % 4 * 16), '=', '=']
  | [b1, b2] =>
    [b64Char (b1 / 4), b64Char (b1 % 4 * 16 + b2 / 16), b64Char (b2 % 16 * 4), '=']
  | b1 :: b2 :: b3 :: rest =>
    b64Char (b1 / 4) :: b64Char (b1 % 4 * 16 + b2 / 16) ::
      b64Char (b2 % 16 * 4 + b3 / 64) :: b64Char (b3 % 64) :: base64Encode rest

/-- The chained replacements of `generateShortUUID`:
`.replace(/\x2b/g, '-')` and `.replace(/\x2f/g, '_')`. -/
def urlSafeChar (c : Char) : Char :=
  if c = '+' then '-' else if c = '/' then '_' else c

/-- `generateShortUUID` (ultra-compact-id.ts lines 22–30) as a function of
the 16 random bytes of the UUID v4 (`randomUUID()` hex, hyphens removed,
decoded by `Buffer.from(_, 'hex')`): base64-encode, make the `+`/`/`
characters URL safe, and strip the `=` padding. -/
def generateShortUUID (bytes : List Nat) : List Char :=
  ((base64Encode bytes).map urlSafeChar).filter (fun c => c ≠ '=')

/-- Character class `[0-9a-f]` with the regex `i` flag (hex digit). -/
def isHexC (c : Char) : Bool :=
  decide ((48 ≤ c.toNat ∧ c.toNat ≤ 57) ∨ (97 ≤ c.toNat ∧ c.toNat ≤ 102) ∨
    (65 ≤ c.toNat ∧ c.toNat ≤ 70))

/-- Character class `[0-9a-zA-Z_-]` of the short-UUID regex. -/
def isB64UrlC (c : Char) : Bool :=
  decide ((48 ≤ c.toNat ∧ c.toNat ≤ 57) ∨ (97 ≤ c.toNat ∧ c.toNat ≤ 122) ∨
    (65 ≤ c.toNat ∧ c.toNat ≤ 90) ∨ c = '_' ∨ c = '-')

/-- Character class `[0-9a-z]` of the compact-UUID regex. -/
def isBase36C (c : Char) : Bool :=
  decide ((48 ≤ c.toNat ∧ c.toNat ≤ 57) ∨ (97 ≤ c.toNat ∧ c.toNat ≤ 122))

/-- The standard-UUID regex
`[0-9a-f]\x7b8\x7d-[0-9a-f]\x7b4\x7d-[0-9a-f]\x7b4\x7d-[0-9a-f]\x7b4\x7d-[0-9a-f]\x7b12\x7d`
with the `i` flag: length 36, hyphens at offsets 8, 13, 18, 23, hex digits
elsewhere. -/
def isUuidFormat (cs : List Char) : Bool :=
  decide (cs.length = 36) &&
    (List.range 36).all (fun i =>
      if i = 8 ∨ i = 13 ∨ i = 18 ∨ i = 23 then cs.getD i ' ' == '-'
      else isHexC (cs.getD i ' '))

/-- `isUltraCompactId` (ultra-compact-id.ts lines 88–93): standard UUID, or
22-character short UUID, or 16-character compact UUID. -/
def isUltraCompactId (cs : List Char) : Bool :=
  isUuidFormat cs || (decide (cs.length = 22) && cs.all isB64UrlC) ||
    (decide (cs.length = 16) && cs.all isBase36C)

end Coolmonitor

namespace Coolmonitor

/-! ## Base64 lemmas for C9 -/

/-- Every alphabet character, after URL-safe replacement, is in
`[0-9a-zA-Z_-]` and is not `=` (indices past the table default to `'A'`,
which also satisfies both). -/
theorem b64Char_spec (i : Nat) :
    isB64UrlC (urlSafeChar (b64Char i)) = true ∧ urlSafeChar (b64Char i) ≠ '=' := by
  by_cases h : i < 64
  · have hall : ∀ j : Fin 64, isB64UrlC (urlSafeChar (b64Char j.val)) = true ∧
        urlSafeChar (b64Char j.val) ≠ '=' := by decide
    exact hall ⟨i, h⟩
  · have hlen : b64Alphabet.length = 64 := by decide
    have hA : b64Char i = 'A' := by
      unfold b64Char
      exact List.getD_eq_default _ _ (by omega)
    rw [hA]
    exact ⟨by decide, by decide⟩

/-- Length of the base64 output after stripping padding, as a function of
the byte count. -/
def strippedLen : Nat → Nat
  | 0 => 0
  | 1 => 2
  | 2 => 3
  | n + 3 => 4 + strippedLen n

/-- The padding-stripped, URL-safe base64 encoding of `n` bytes has
`strippedLen n` characters. -/
theorem base64_stripped_length : ∀ bytes : List Nat,
    (((base64Encode bytes).map urlSafeChar).filter (fun c => c ≠ '=')).length
      = strippedLen bytes.length
  | [] => by simp [base64Encode, strippedLen]
  | [b1] => by
    have h1 := (b64Char_spec (b1 / 4)).2
    have h2 := (b64Char_spec (b1 % 4 * 16)).2
    simp [base64Encode, strippedLen, List.filter_cons, h1, h2,
      show urlSafeChar '=' = '=' from rfl]
  | [b1, b2] => by
    have h1 := (b64Char_spec (b1 / 4)).2
    have h2 := (b64Char_spec (b1 % 4 * 16 + b2 / 16)).2
    have h3 := (b64Char_spec (b2 % 16 * 4)).2
    simp [base64Encode, strippedLen, List.filter_cons, h1, h2, h3,
      show urlSafeChar '=' = '=' from rfl]
  | b1 :: b2 :: b3 :: rest => by
    have h1 := (b64Char_spec (b1 / 4)).2
    have h2 := (b64Char_spec (b1 % 4 * 16 + b2 / 16)).2
    have h3 := (b64Char_spec (b2 % 16 * 4 + b3 / 64)).2
    have h4 := (b64Char_spec (b3 % 64)).2
    have hrec := base64_stripped_length rest
    simp only [base64Encode, strippedLen]
    simp [List.filter_cons, h1, h2, h3, h4]
    simp at hrec
    omega

/-- Every character emitted by the encoder is an alphabet character or the
padding `=`. -/
theorem base64Encode_mem : ∀ (bytes : List Nat) (c : Char),
    c ∈ base64Encode bytes → (∃ i, c = b64Char i) ∨ c = '='
  | [] => by simp [base64Encode]
  | [b1] => by
    intro c hc
    simp [base64Encode] at hc
    rcases hc with h | h | h
    · exact Or.inl ⟨_, h⟩
    · exact Or.inl ⟨_, h⟩
    · exact Or.inr h
  | [b1, b2] => by
    intro c hc
    simp [base64Encode] at hc
    rcases hc with h | h | h | h
    · exact Or.inl ⟨_, h⟩
    · exact Or.inl ⟨_, h⟩
    · exact Or.inl ⟨_, h⟩
    · exact Or.inr h
  | b1 :: b2 :: b3 :: rest => by
    intro c hc
    simp only [base64Encode, List.mem_cons] at hc
    rcases hc with h | h | h | h | h
    · exact Or.inl ⟨_, h⟩
    · exact Or.inl ⟨_, h⟩
    · exact Or.inl ⟨_, h⟩
    · exact Or.inl ⟨_, h⟩
    · exact base64Encode_mem rest c h

/-- Every character of the padding-stripped URL-safe encoding lies in
`[0-9a-zA-Z_-]`. -/
theorem base64_stripped_all (bytes : List Nat) :
    (((base64Encode bytes).map urlSafeChar).filter (fun c => c ≠ '=')).all isB64UrlC
      = true := by
  rw [List.all_eq_true]
  intro c hc
  rw [List.mem_filter] at hc
  obtain ⟨hcm, hcne⟩ := hc
  rw [List.mem_map] at hcm
  obtain ⟨c', hc', rfl⟩ := hcm
  rcases base64Encode_mem bytes c' hc' with ⟨i, rfl⟩ | rfl
  · exact (b64Char_spec i).1
  · simp [urlSafeChar] at hcne

/-- A `[0-9a-zA-Z_-]` character is not `+`, `/` or `=`. -/
theorem isB64UrlC_not_special (c : Char) (h : isB64UrlC c = true) :
    c ≠ '+' ∧ c ≠ '/' ∧ c ≠ '=' := by
  have h' := of_decide_eq_true h
  refine ⟨?_, ?_, ?_⟩ <;> intro he <;> subst he <;> revert h' <;> decide

end Coolmonitor

namespace Coolmonitor

/-! ## Theorems: short UUID (C9) -/

/-- C9: for any 16-byte UUID input, `generateShortUUID` returns exactly 22
characters, all in the URL-safe class `[0-9a-zA-Z_-]` (in particular none of
them is `+`, `/` or `=`), and `isUltraCompactId` accepts the result via its
short-UUID alternative. -/
theorem generateShortUUID_urlsafe (bytes : List Nat) (hlen : bytes.length = 16)
    (_hb : ∀ b ∈ bytes, b < 256) :
    (generateShortUUID bytes).length = 22 ∧
      (generateShortUUID bytes).all isB64UrlC = true ∧
      (generateShortUUID bytes).all
        (fun c => decide (c ≠ '+' ∧ c ≠ '/' ∧ c ≠ '=')) = true ∧
      isUltraCompactId (generateShortUUID bytes) = true := by
  have hL : (generateShortUUID bytes).length = 22 := by
    unfold generateShortUUID
    rw [base64_stripped_length, hlen]
    decide
  have hAll : (generateShortUUID bytes).all isB64UrlC = true := base64_stripped_all bytes
  refine ⟨hL, hAll, ?_, ?_⟩
  · rw [List.all_eq_true]
    intro c hc
    have hcb := (List.all_eq_true.mp hAll) c hc
    exact decide_eq_true (isB64UrlC_not_special c hcb)
  · simp [isUltraCompactId, hL, hAll]

/-- Sixteen concrete UUID bytes for the C9 witness. -/
def c9Bytes : List Nat := [0, 1, 2, 3, 4, 5, 6, 7, 8, 9, 10, 11, 12, 13, 14, 15]

/-- C9 witness: the concrete 16-byte input produces a 22-character URL-safe
id accepted by `isUltraCompactId`. -/
theorem generateShortUUID_urlsafe_witness :
    (generateShortUUID c9Bytes).length = 22 ∧
      (generateShortUUID c9Bytes).all isB64UrlC = true ∧
      (generateShortUUID c9Bytes).all
        (fun c => decide (c ≠ '+' ∧ c ≠ '/' ∧ c ≠ '=')) = true ∧
      isUltraCompactId (generateShortUUID c9Bytes) = true :=
  generateShortUUID_urlsafe c9Bytes (by decide) (by decide)

end Coolmonitor

namespace Coolmonitor

/-! ## src/lib/utils/ultra-compact-id.ts — compact UUID and time extraction -/

/-- `new Date('2024-01-01T00:00:00Z').getTime()`. -/
def baseTimeMs : Nat := 1704067200000

/-- Digit character of `Number.prototype.toString(36)`: `0-9` then `a-z`. -/
def toB36Digit (d : Nat) : Char :=
  if d < 10 then Char.ofNat (48 + d) else Char.ofNat (87 + d)

/-- `n.toString(36)` for a non-negative integer: most significant digit
first, `"0"` for zero. -/
def natToBase36Digits (n : Nat) : List Char :=
  if _h : n < 36 then [toB36Digit n]
  else natToBase36Digits (n / 36) ++ [toB36Digit (n % 36)]
termination_by n
decreasing_by exact Nat.div_lt_self (by omega) (by omega)

/-- `.padStart(8, '0')`. -/
def padStart8 (cs : List Char) : List Char :=
  List.replicate (8 - cs.length) '0' ++ cs

/-- `.slice(-8)`: the last 8 characters (or the whole string when
shorter). -/
def sliceLast8 (cs : List Char) : List Char :=
  cs.drop (cs.length - 8)

/-- `generateCompactUUID` (ultra-compact-id.ts lines 39–51) at clock time
`now` ms: an 8-char base-36 timestamp relative to `BASE_TIME` (padded, last
8 kept) followed by `Math.random().toString(36).substring(2, 10)`, supplied
here as `randomCode` (its characters are base-36 digits; it is shorter than
8 when the random fraction terminates early). -/
def generateCompactUUID (now : Nat) (randomCode : List Char) : List Char :=
  sliceLast8 (padStart8 (natToBase36Digits (now - baseTimeMs))) ++ randomCode

/-- Numeric value of a base-36 digit character as `parseInt(_, 36)` reads
it (`0-9`, `a-z`, `A-Z`; other characters never reach this point). -/
def b36Val (c : Char) : Nat :=
  if 48 ≤ c.toNat ∧ c.toNat ≤ 57 then c.toNat - 48
  else if 97 ≤ c.toNat ∧ c.toNat ≤ 122 then c.toNat - 87
  else if 65 ≤ c.toNat ∧ c.toNat ≤ 90 then c.toNat - 55
  else 0

/-- Character class accepted by `parseInt(_, 36)` as a digit. -/
def isB36DigitAny (c : Char) : Bool :=
  decide ((48 ≤ c.toNat ∧ c.toNat ≤ 57) ∨ (97 ≤ c.toNat ∧ c.toNat ≤ 122) ∨
    (65 ≤ c.toNat ∧ c.toNat ≤ 90))

/-- Value of a base-36 digit string, most significant digit first. -/
def b36Value (cs : List Char) : Nat :=
  cs.foldl (fun a c => a * 36 + b36Val c) 0

/-- `parseInt(s, 36)` on the strings reaching it here (no sign, no leading
whitespace): value of the longest leading digit run, `none` for `NaN`. -/
def jsParseIntBase36 (cs : List Char) : Option Nat :=
  if cs.takeWhile isB36DigitAny = [] then none
  else some (b36Value (cs.takeWhile isB36DigitAny))

/-- `extractTimeFromUltraCompactId` (ultra-compact-id.ts lines 98–117),
returning the extracted epoch milliseconds: `none` when the id fails
`isUltraCompactId`, when it is not in 16-char compact form, or for the
(unreachable) `NaN` parse producing an invalid date. -/
def extractTimeFromUltraCompactId (cs : List Char) : Option Nat :=
  if isUltraCompactId cs = false then none
  else if decide (cs.length = 16) && cs.all isBase36C then
    match jsParseIntBase36 (cs.take 8) with
    | some v => some (baseTimeMs + v)
    | none => none
  else none

end Coolmonitor

namespace Coolmonitor

/-! ## Base-36 lemmas for C10 -/

/-- `toString(36)` digits are in `[0-9a-z]` and `b36Val` inverts them. -/
theorem toB36Digit_spec : ∀ d : Fin 36,
    isBase36C (toB36Digit d.val) = true ∧ b36Val (toB36Digit d.val) = d.val := by
  decide

/-- All characters of `n.toString(36)` are in `[0-9a-z]`. -/
theorem natToBase36Digits_all (n : Nat) :
    (natToBase36Digits n).all isBase36C = true := by
  unfold natToBase36Digits
  split
  · next h => simp [(toB36Digit_spec ⟨n, h⟩).1]
  · next h =>
    have ih := natToBase36Digits_all (n / 36)
    have hmod := (toB36Digit_spec ⟨n % 36, Nat.mod_lt n (by omega)⟩).1
    simp [List.all_append, ih, hmod]
termination_by n
decreasing_by exact Nat.div_lt_self (by omega) (by omega)

/-- Reading back `n.toString(36)` in base 36 yields `n`. -/
theorem b36Value_natToBase36Digits (n : Nat) :
    b36Value (natToBase36Digits n) = n := by
  unfold natToBase36Digits
  split
  · next h => simp [b36Value, (toB36Digit_spec ⟨n, h⟩).2]
  · next h =>
    have ih := b36Value_natToBase36Digits (n / 36)
    have hmod : b36Val (toB36Digit (n % 36)) = n % 36 :=
      (toB36Digit_spec ⟨n % 36, Nat.mod_lt n (by omega)⟩).2
    simp only [b36Value, List.foldl_append, List.foldl_cons, List.foldl_nil]
    rw [show (natToBase36Digits (n / 36)).foldl (fun a c => a * 36 + b36Val c) 0
        = b36Value (natToBase36Digits (n / 36)) from rfl, ih, hmod]
    omega
termination_by n
decreasing_by exact Nat.div_lt_self (by omega) (by omega)

/-- `n.toString(36)` has at most `k` digits when `n < 36 ^ k` (`k > 0`). -/
theorem natToBase36Digits_length (k : Nat) :
    ∀ n : Nat, 0 < k → n < 36 ^ k → (natToBase36Digits n).length ≤ k := by
  induction k with
  | zero => intro n h; omega
  | succ k ih =>
    intro n _ hn
    unfold natToBase36Digits
    split
    · simp
    · next h =>
      rcases Nat.eq_zero_or_pos k with hk | hk
      · subst hk
        simp [pow_succ] at hn
        omega
      · have hdiv : n / 36 < 36 ^ k := by
          rw [Nat.div_lt_iff_lt_mul (by omega)]
          calc n < 36 ^ (k + 1) := hn
          _ = 36 ^ k * 36 := by rw [pow_succ]
        have := ih (n / 36) hk hdiv
        simp only [List.length_append, List.length_cons, List.length_nil]
        omega

/-- Leading `'0'` padding does not change the base-36 value. -/
theorem b36Value_replicate_zero (k : Nat) (cs : List Char) :
    b36Value (List.replicate k '0' ++ cs) = b36Value cs := by
  induction k with
  | zero => simp
  | succ k ih =>
    have h0 : b36Val '0' = 0 := by decide
    simp only [List.replicate_succ, List.cons_append, b36Value, List.foldl_cons, h0]
    simpa [b36Value] using ih

end Coolmonitor

namespace Coolmonitor

/-- On a 16-character `[0-9a-z]` id, time extraction takes the compact-UUID
branch and reads the first 8 characters in base 36. -/
theorem extractTime_of_base36 (cs : List Char) (h16 : cs.length = 16)
    (hall : cs.all isBase36C = true) :
    extractTimeFromUltraCompactId cs = some (baseTimeMs + b36Value (cs.take 8)) := by
  have hid : isUltraCompactId cs = true := by
    simp [isUltraCompactId, h16, hall]
  have htake_all : ∀ c ∈ cs.take 8, isB36DigitAny c = true := by
    intro c hc
    have hc' := (List.all_eq_true.mp hall) c (List.take_subset 8 cs hc)
    have h' := of_decide_eq_true hc'
    exact decide_eq_true (by rcases h' with h | h
                             · exact Or.inl h
                             · exact Or.inr (Or.inl h))
  have htw : (cs.take 8).takeWhile isB36DigitAny = cs.take 8 :=
    List.takeWhile_eq_self_iff.mpr htake_all
  have htake_len : (cs.take 8).length = 8 := by
    rw [List.length_take]; omega
  have htake_ne : cs.take 8 ≠ [] := by
    intro he
    rw [he] at htake_len
    simp at htake_len
  unfold extractTimeFromUltraCompactId jsParseIntBase36
  rw [htw]
  simp [hid, h16, hall, htake_ne]

/-- The 8-character time code of `generateCompactUUID`: padded base-36
relative timestamp, last 8 characters. -/
theorem timeCode_spec (rt : Nat) (hrt : rt < 36 ^ 8) :
    (sliceLast8 (padStart8 (natToBase36Digits rt))).length = 8 ∧
      b36Value (sliceLast8 (padStart8 (natToBase36Digits rt))) = rt ∧
      (sliceLast8 (padStart8 (natToBase36Digits rt))).all isBase36C = true := by
  have hdl : (natToBase36Digits rt).length ≤ 8 :=
    natToBase36Digits_length 8 rt (by omega) hrt
  have hpadlen : (padStart8 (natToBase36Digits rt)).length = 8 := by
    simp [padStart8]
    omega
  have hslice : sliceLast8 (padStart8 (natToBase36Digits rt))
      = padStart8 (natToBase36Digits rt) := by
    simp [sliceLast8, hpadlen]
  rw [hslice, hpadlen]
  refine ⟨rfl, ?_, ?_⟩
  · rw [padStart8, b36Value_replicate_zero, b36Value_natToBase36Digits]
  · rw [padStart8, List.all_append]
    have hz : (List.replicate (8 - (natToBase36Digits rt).length) '0').all isBase36C
        = true := by
      rw [List.all_eq_true]
      intro c hc
      rw [List.eq_of_mem_replicate hc]
      decide
    rw [hz, natToBase36Digits_all]
    rfl

/-- C10: time extraction and its round trip with `generateCompactUUID`.
For every 16-character id `cs` over `[0-9a-z]`,
`extractTimeFromUltraCompactId` returns `BASE_TIME` plus the base-36 value
of its first 8 characters; and for every compact UUID generated at clock
time `now` with `BASE_TIME ≤ now`, `now - BASE_TIME < 36^8`, and an 8-digit
base-36 random code (exactly the case in which the output has 16
characters), the output length is 16 and the extracted time equals `now`. -/
theorem extractTime_roundtrip (cs rand : List Char) (now : Nat)
    (h16 : cs.length = 16) (hall : cs.all isBase36C = true)
    (hbase : baseTimeMs ≤ now) (hrt : now - baseTimeMs < 36 ^ 8)
    (hrand : rand.all isBase36C = true) (hrlen : rand.length = 8) :
    extractTimeFromUltraCompactId cs = some (baseTimeMs + b36Value (cs.take 8)) ∧
      (generateCompactUUID now rand).length = 16 ∧
      extractTimeFromUltraCompactId (generateCompactUUID now rand) = some now := by
  obtain ⟨htc_len, htc_val, htc_all⟩ := timeCode_spec (now - baseTimeMs) hrt
  have hglen : (generateCompactUUID now rand).length = 16 := by
    simp only [generateCompactUUID, List.length_append, htc_len, hrlen]
  have hgall : (generateCompactUUID now rand).all isBase36C = true := by
    simp only [generateCompactUUID, List.all_append, htc_all, hrand]
    rfl
  have hgtake : (generateCompactUUID now rand).take 8
      = sliceLast8 (padStart8 (natToBase36Digits (now - baseTimeMs))) := by
    exact List.take_left' htc_len
  refine ⟨extractTime_of_base36 cs h16 hall, hglen, ?_⟩
  rw [extractTime_of_base36 _ hglen hgall, hgtake, htc_val,
    show baseTimeMs + (now - baseTimeMs) = now by omega]

/-- Concrete 16-character compact id for the C10 witness. -/
def c10Id : List Char :=
  ['0', '0', '0', '0', '0', '0', '0', '0', 'a', 'b', 'c', 'd', 'e', 'f', 'g', 'h']

/-- Concrete 8-character random code for the C10 witness. -/
def c10Rand : List Char := ['a', 'a', 'a', 'a', 'a', 'a', 'a', 'a']

/-- C10 witness: the concrete id extracts to `BASE_TIME` plus the value of
its first 8 digits, and a compact UUID generated 1000 ms after `BASE_TIME`
with the concrete random code extracts back to exactly that clock time. -/
theorem extractTime_roundtrip_witness :
    extractTimeFromUltraCompactId c10Id =
        some (baseTimeMs + b36Value (c10Id.take 8)) ∧
      (generateCompactUUID (baseTimeMs + 1000) c10Rand).length = 16 ∧
      extractTimeFromUltraCompactId (generateCompactUUID (baseTimeMs + 1000) c10Rand)
        = some (baseTimeMs + 1000) :=
  extractTime_roundtrip c10Id c10Rand (baseTimeMs + 1000) (by decide) (by decide)
    (by decide) (by decide) (by decide) (by decide)

end Coolmonitor
